import Mathlib

/-!
Verification of the discourse_to_ggroups repository (process_discourse_db.py,
gmailer.py) against its natural-language specification.

The Python sources are shallowly embedded below. Dictionaries become
association lists looked up with `alookup`; datetimes are modelled by their
ISO-8601 string rendering (the only form the program ever uses after
`.isoformat()`); the filesystem probed by `os.path.exists` and the mail
transport called through `gmailer.SendMessage` become explicit functional
parameters; Python exceptions become `Except` error values, one constructor
per distinct `raise` site (plus constructors for the interpreter-level
`KeyError` / `IndexError` / `NameError` the code can hit).
-/

/-! ## Configuration constants (module-level globals of process_discourse_db.py) -/

/-- `PATH_TO_UPLOADS_DIR = 'uploads/'` -/
def PATH_TO_UPLOADS_DIR : String := "uploads/"

/-- `INTERNAL_UPLOAD_PATH_PREFIX` is assigned twice in the source; the second
assignment `'/forum/uploads/'` is the effective value. -/
def INTERNAL_UPLOAD_PATH_PREFIX : String := "/forum/uploads/"

/-! ## Data model: the unified document built by generate_single_dict -/

/-- One post entry of `d[tid]['posts']`. -/
structure Post where
  author : String
  created : String
  updated : String
  raw : String
  cooked : String
  image_url : Option String
deriving DecidableEq, Repr

/-- One topic entry `d[tid]`. The `thread_id` field models the key that
`mail_topics_as_posts_bf` adds to the topic dictionary at scheduling time
(absent / not yet written is modelled as `none`). -/
structure TopicEntry where
  author : String
  title : String
  created : String
  posts : List Post
  thread_id : Option String := none
deriving DecidableEq, Repr

/-- The unified document `d`: a Python dict keyed by topic id.  Keys are
unique (they come from a primary-key column). -/
abbrev Doc := List (Nat × TopicEntry)

/-- Python dict lookup `m[k]`: first matching key (keys are unique). -/
def alookup {β : Type} : List (Nat × β) → Nat → Option β
  | [], _ => none
  | (k, v) :: rest, key => if k = key then some v else alookup rest key

/-! ## Python string primitives used by the code

Python 2 `str` operations are modelled on the character list of the Lean
string: slicing `s[:n]` / `s[n:]` is `List.take` / `List.drop`, `startswith`
is prefix testing, and `replace('\n', x)` (a one-character pattern) is a
character-by-character rewrite. -/

/-- `s[:n]` -/
def strTake (s : String) (n : Nat) : String := String.mk (s.data.take n)

/-- `s[n:]` -/
def strDrop (s : String) (n : Nat) : String := String.mk (s.data.drop n)

/-- `s.startswith(p)` -/
def strStartsWith (s p : String) : Bool := p.data.isPrefixOf s.data

/-- Helper for `replace('\n', '<br />')`. -/
def brJoin : List Char → String
  | [] => ""
  | c :: rest => (if c = '\n' then "<br />" else String.singleton c) ++ brJoin rest

/-- `text.replace('\n', '<br />')` -/
def replaceNewlines (s : String) : String := brJoin s.data

/-! ## construct_post_email_contents -/

/-- The ways `construct_post_email_contents` can raise: its two explicit
`raise Exception(...)` sites for an unknown topic and a missing reply, the
structural-check raise (which cannot fire on documents of this shape), and
the interpreter `IndexError` reached when `post_number` equals the post
count (the guard `len(...) < post_number` does not catch that value, so the
subscript `d[tid]['posts'][post_number]` fails instead). -/
inductive RenderError where
  | unknownTopic (tid : Nat)
  | lacksStructure (tid : Nat)
  | noSuchReply (tid : Nat) (post_number : Nat)
  | indexError
deriving DecidableEq, Repr

/-- Embedding of `construct_post_email_contents(d, tid, post_number)`
(process_discourse_db.py lines 500-551).  The `'posts' not in d[tid]`
structural check of the source cannot fire here because every `TopicEntry`
carries a `posts` field. -/
def construct_post_email_contents (d : Doc) (tid : Nat) (post_number : Nat) :
    Except RenderError (String × String) :=
  match alookup d tid with
  | none => .error (.unknownTopic tid)
  | some t =>
    if t.posts.length < post_number then
      .error (.noSuchReply tid post_number)
    else
      match t.posts[post_number]? with
      | none => .error .indexError
      | some post =>
        let topic_title := t.title
        let text := ""
        let text := if post_number = 0 then
            text ++ "Topic posted by Discourse-to-Google-Groups forum transfer.\n"
          else text
        let text := text ++ "Post " ++ toString (post_number + 1) ++ " of Topic \""
        let text := if topic_title.length > 39 then
            text ++ strTake topic_title 36 ++ "..."
          else
            text ++ topic_title
        let text := text ++ "\"\n"
        let text := text ++ "Post Created: " ++ post.created ++ "\n"
        let text := if post.created ≠ post.updated then
            text ++ "Post Updated: " ++ post.updated ++ "\n"
          else text
        let text := match post.image_url with
          | some u => text ++ "Attached Image URL: " ++ u ++ "\n"
          | none => text
        let text := text ++ "Post Author " ++ post.author ++ " wrote:\n\n"
        let text_html := replaceNewlines text
        let text := text ++ post.raw ++ "\n\n\n"
        let text_html := text_html ++ post.cooked ++ "<br /><br /><br />"
        .ok (text, text_html)

/-! ## process_image_url -/

/-- Embedding of `process_image_url(d, tid, post_number)`
(process_discourse_db.py lines 558-591).  `fs` models `os.path.exists`.
The `.error` branches model the interpreter `KeyError` / `IndexError` the
subscripts on line 567 would raise when the topic or post does not exist;
for any known topic and in-range index the function is total. -/
def process_image_url (fs : String → Bool) (d : Doc) (tid : Nat) (post_number : Nat) :
    Except Unit (Option String) :=
  match alookup d tid with
  | none => .error ()
  | some t =>
    match t.posts[post_number]? with
    | none => .error ()
    | some post =>
      match post.image_url with
      | none => .ok none
      | some image_url =>
        if strStartsWith image_url "http://" || strStartsWith image_url "https://" then
          .ok none
        else
          let image_url :=
            if strStartsWith image_url INTERNAL_UPLOAD_PATH_PREFIX then
              PATH_TO_UPLOADS_DIR ++ strDrop image_url INTERNAL_UPLOAD_PATH_PREFIX.length
            else image_url
          if !(fs image_url) then .ok none
          else .ok (some image_url)

/-! ## gmailer: the mail-transmission collaborator

`gmailer.SendMessage` eventually calls `SendMessageInternal`, which executes
the Gmail API call and either returns the API's message resource (a dict) or
catches an `errors.HttpError` and returns the plain string `"Error"`.  The
schedulers only inspect the result's shape, so the result is modelled as
either a string or a dict with an optional `labelIds` key plus the `id` and
`threadId` fields of a message resource. -/

/-- A Gmail message resource as returned by a successful API call.
`labelIds := none` models a dict lacking the `'labelIds'` key. -/
structure MsgDict where
  labelIds : Option (List String)
  id : String
  threadId : String
deriving DecidableEq, Repr

/-- What `gmailer.SendMessage` returns to the scheduler. -/
inductive SendResult where
  | str (s : String)
  | dict (m : MsgDict)
deriving DecidableEq, Repr

/-- Outcome of the underlying `service.users().messages().send(...).execute()`
call inside `SendMessageInternal`: either the message resource or an
`apiclient.errors.HttpError` (carried as its message string). -/
inductive ApiOutcome where
  | success (m : MsgDict)
  | httpError (msg : String)
deriving DecidableEq, Repr

/-- Embedding of `gmailer.SendMessageInternal` (gmailer.py lines 64-72): a
successful API call returns the message dict; an `HttpError` is caught and
the plain string `"Error"` is returned instead.  (The source's trailing
`return "OK"` is unreachable: both branches of the try/except return.) -/
def SendMessageInternal : ApiOutcome → SendResult
  | .success m => .dict m
  | .httpError _ => .str "Error"

/-- The acknowledgment check both schedulers apply to a send result:
`isinstance(result, dict) and 'labelIds' in result and 'SENT' in
result['labelIds']`.  The schedulers raise when this is false. -/
def isAck : SendResult → Bool
  | .dict m =>
    match m.labelIds with
    | some ls => ls.contains "SENT"
    | none => false
  | .str _ => false

/-- `result['id']` of an acknowledged (hence dict-shaped) result; the string
branch is never reached by the schedulers. -/
def resId : SendResult → String
  | .dict m => m.id
  | .str _ => ""

/-- `result['threadId']` of an acknowledged (hence dict-shaped) result. -/
def resThread : SendResult → String
  | .dict m => m.threadId
  | .str _ => ""

/-! ## The emission schedulers

The transport is a parameter `tr : Nat → SendResult` giving the result of
the k-th `gmailer.SendMessage` call of the run (0-indexed); `fs` models
`os.path.exists` as in `process_image_url`.  Each issued send is recorded as
a `SendEvent` holding the global call index, the topic and post position it
belongs to, and the arguments of the call.  On an abort the events issued up
to and including the failing send are returned with the error. -/

/-- The arguments of one `gmailer.SendMessage` call (sender/recipient are the
constant `BACKUP_MAILER` / `FORUM_ADDRESS` globals and are omitted). -/
structure SendCall where
  subject : String
  html : String
  plain : String
  attachment : Option String
  threadId : Option String
  reply_to : Option String
deriving DecidableEq, Repr

/-- One issued send: global call index `k`, topic `tid`, post position
`idx`, and the call's arguments. -/
structure SendEvent where
  k : Nat
  tid : Nat
  idx : Nat
  call : SendCall
deriving DecidableEq, Repr

/-- Every way a scheduling run can abort, one constructor per raise site:
`keyError` for an interpreter `KeyError` on a dict subscript, `unknownTopic`
for the (dead) `'Topic ID ... is not known.'` raise in the breadth-first
initialisation, `renderError` / `resolveError` for errors propagating out of
the renderer and resolver, `sendFailInitial` / `sendFail` for the two
descriptive raises of `mail_topic_as_posts`, and `nameError` for the
interpreter `NameError` that the failure branch of `mail_topics_as_posts_bf`
actually raises: its raise expression reads the names `i` and
`previous_message_id`, neither of which is defined in that function. -/
inductive SchedError where
  | keyError (tid : Nat)
  | unknownTopic (tid : Nat)
  | renderError (e : RenderError)
  | resolveError
  | sendFailInitial (tid : Nat)
  | sendFail (i : Nat) (tid : Nat) (previous_message_id : String)
  | nameError (var : String)
deriving DecidableEq, Repr

/-- The loop `for i in range(1, len(d[tid]['posts']))` of
`mail_topic_as_posts` (lines 392-415), over the remaining indices `is`.
At index `i` the run has already issued `i` sends, so the transport index of
this send is `i` itself. -/
def seqLoop (tr : Nat → SendResult) (fs : String → Bool) (d : Doc) (tid : Nat)
    (thread_id : String) :
    List Nat → String → List SendEvent →
    Except (SchedError × List SendEvent) (List SendEvent)
  | [], _, events => .ok events
  | i :: rest, previous_message_id, events =>
    match construct_post_email_contents d tid i with
    | .error e => .error (.renderError e, events)
    | .ok (text_plain, text_html) =>
      match process_image_url fs d tid i with
      | .error _ => .error (.resolveError, events)
      | .ok image_url =>
        match alookup d tid with
        | none => .error (.keyError tid, events)
        | some t =>
          let call : SendCall :=
            ⟨t.title, text_html, text_plain, image_url, some thread_id,
             some previous_message_id⟩
          let result := tr i
          let ev : SendEvent := ⟨i, tid, i, call⟩
          if isAck result then
            seqLoop tr fs d tid thread_id rest (resId result) (events ++ [ev])
          else
            .error (.sendFail i tid previous_message_id, events ++ [ev])

/-- Embedding of `mail_topic_as_posts(d, tid)` (process_discourse_db.py
lines 359-415): the single-topic sequential mode.  The first post is sent
with no attachment argument, no thread id and no reply reference; each later
post `i` is sent with its resolved attachment, the thread id taken from the
first send's result and the message id of the immediately preceding send. -/
def mail_topic_as_posts (tr : Nat → SendResult) (fs : String → Bool)
    (d : Doc) (tid : Nat) :
    Except (SchedError × List SendEvent) (List SendEvent) :=
  match construct_post_email_contents d tid 0 with
  | .error e => .error (.renderError e, [])
  | .ok (text_plain, text_html) =>
    match alookup d tid with
    | none => .error (.keyError tid, [])
    | some t =>
      let call : SendCall := ⟨t.title, text_html, text_plain, none, none, none⟩
      let result := tr 0
      let ev : SendEvent := ⟨0, tid, 0, call⟩
      if isAck result then
        seqLoop tr fs d tid (resThread result)
          (List.range' 1 (t.posts.length - 1)) (resId result) [ev]
      else
        .error (.sendFailInitial tid, [ev])

/-! ### Breadth-first mode -/

/-- `previous_message_id_by_tid`: a dict from topic id to the optional id of
the topic's last acknowledged message. -/
abbrev PrevMap := List (Nat × Option String)

/-- Write `d[tid]['thread_id'] = v`. -/
def setThread (d : Doc) (tid : Nat) (v : Option String) : Doc :=
  d.map (fun p => if p.1 = tid then (p.1, { p.2 with thread_id := v }) else p)

/-- The mutable state of a breadth-first run: the document (whose per-topic
`thread_id` slots the scheduler writes), the `previous_message_id_by_tid`
dict, the number of sends issued so far (`k`, the transport index of the
next send), the trace of issued sends, and — as the observable needed to
settle the thread-state lifecycle claims — the chronological log of every
write `d[tid]['thread_id'] = result['threadId']` the run performs. -/
structure BfState where
  d : Doc
  prev : PrevMap
  k : Nat
  trace : List SendEvent
  writes : List (Nat × String)
deriving DecidableEq, Repr

/-- The initialisation loop of `mail_topics_as_posts_bf` (lines 447-456):
computes `most_posts_in_one_topic`, nulls each selected topic's `thread_id`
and seeds `previous_message_id_by_tid`.  `len(d[tid]['posts'])` is evaluated
before the `if tid not in d` membership test, so an unknown topic id raises
a `KeyError` there and the descriptive raise is unreachable. -/
def bfInit (d : Doc) (tids : List Nat) (most : Nat) (prev : PrevMap) :
    Except (SchedError × List SendEvent) (Doc × Nat × PrevMap) :=
  match tids with
  | [] => .ok (d, most, prev)
  | tid :: rest =>
    match alookup d tid with
    | none => .error (.keyError tid, [])
    | some t =>
      let most := if t.posts.length > most then t.posts.length else most
      bfInit (setThread d tid none) rest most ((tid, none) :: prev)

/-- The inner loop `for tid in tids` of one breadth-first round
(lines 461-492), at round (post position) `r`.  A topic whose post list is
exhausted is skipped; otherwise the post is rendered, its attachment
resolved, and the send issued with the topic's current `thread_id` and
`previous_message_id_by_tid` entry.  An unacknowledged result takes the
failure branch, whose raise expression reads the undefined name `i` — the
run therefore aborts with a `NameError`.  After an acknowledged send the
topic's `thread_id` and previous-message id are overwritten from the
result. -/
def bfRoundTids (tr : Nat → SendResult) (fs : String → Bool) (r : Nat) :
    BfState → List Nat → Except (SchedError × List SendEvent) BfState
  | st, [] => .ok st
  | st, tid :: rest =>
    match alookup st.d tid with
    | none => .error (.keyError tid, st.trace)
    | some t =>
      if r ≥ t.posts.length then bfRoundTids tr fs r st rest
      else
        match construct_post_email_contents st.d tid r with
        | .error e => .error (.renderError e, st.trace)
        | .ok (text, text_html) =>
          match process_image_url fs st.d tid r with
          | .error _ => .error (.resolveError, st.trace)
          | .ok image_url =>
            match alookup st.prev tid with
            | none => .error (.keyError tid, st.trace)
            | some previous_message_id =>
              let call : SendCall :=
                ⟨t.title, text_html, text, image_url, t.thread_id,
                 previous_message_id⟩
              let result := tr st.k
              let ev : SendEvent := ⟨st.k, tid, r, call⟩
              if isAck result then
                bfRoundTids tr fs r
                  ⟨setThread st.d tid (some (resThread result)),
                   (tid, some (resId result)) :: st.prev,
                   st.k + 1,
                   st.trace ++ [ev],
                   st.writes ++ [(tid, resThread result)]⟩ rest
              else
                .error (.nameError "i", st.trace ++ [ev])

/-- The outer loop `for post_number in range(0, most_posts_in_one_topic)`
(line 459), over the list of remaining round numbers. -/
def bfRounds (tr : Nat → SendResult) (fs : String → Bool) (tids : List Nat) :
    BfState → List Nat → Except (SchedError × List SendEvent) BfState
  | st, [] => .ok st
  | st, r :: rs =>
    match bfRoundTids tr fs r st tids with
    | .error e => .error e
    | .ok st => bfRounds tr fs tids st rs

/-- Embedding of `mail_topics_as_posts_bf(d, tids)` (process_discourse_db.py
lines 422-494): the multi-topic breadth-first mode.  The `tids=None` default
(mail every topic) corresponds to passing the document's key list. -/
def mail_topics_as_posts_bf (tr : Nat → SendResult) (fs : String → Bool)
    (d : Doc) (tids : List Nat) :
    Except (SchedError × List SendEvent) BfState :=
  match bfInit d tids 0 [] with
  | .error e => .error e
  | .ok (d, most, prev) =>
    bfRounds tr fs tids ⟨d, prev, 0, [], []⟩ (List.range most)

/-! ## Renderer and resolver claims (C5, C6, C7) -/

/-- The two ways the renderer fails on an out-of-range index: its own
`'does not have a ...th reply'` raise (taken when the index is strictly
greater than the post count) and the interpreter `IndexError` (taken when
the index equals the post count). -/
def isIndexErr : RenderError → Bool
  | .noSuchReply _ _ => true
  | .indexError => true
  | _ => false

/-- Shape of the renderer on an unknown topic id. -/
theorem construct_of_unknown (d : Doc) (tid n : Nat) (h : alookup d tid = none) :
    construct_post_email_contents d tid n = .error (.unknownTopic tid) := by
  simp [construct_post_email_contents, h]

/-- Shape of the renderer when the index strictly exceeds the post count. -/
theorem construct_of_gt (d : Doc) (tid n : Nat) (t : TopicEntry)
    (h : alookup d tid = some t) (hlt : t.posts.length < n) :
    construct_post_email_contents d tid n = .error (.noSuchReply tid n) := by
  simp [construct_post_email_contents, h, hlt]

/-- Shape of the renderer when the index equals the post count: the guard
`len(...) < post_number` passes and the subscript raises `IndexError`. -/
theorem construct_of_eq (d : Doc) (tid : Nat) (t : TopicEntry)
    (h : alookup d tid = some t) :
    construct_post_email_contents d tid t.posts.length = .error .indexError := by
  have hget : t.posts[t.posts.length]? = none := by
    rw [List.getElem?_eq_none_iff]
  simp [construct_post_email_contents, h, hget]

/-- The renderer returns normally on a known topic and in-range index. -/
theorem construct_isOk (d : Doc) (tid n : Nat) (t : TopicEntry)
    (h : alookup d tid = some t) (hn : n < t.posts.length) :
    ∃ r, construct_post_email_contents d tid n = .ok r := by
  obtain ⟨post, hget⟩ : ∃ post, t.posts[n]? = some post :=
    ⟨t.posts[n], List.getElem?_eq_some.mpr ⟨hn, rfl⟩⟩
  have hlt : ¬ (t.posts.length < n) := by omega
  cases hc : construct_post_email_contents d tid n with
  | ok r => exact ⟨r, rfl⟩
  | error e =>
    exfalso
    simp [construct_post_email_contents, h, hlt, hget] at hc

/-- C5: `construct_post_email_contents(d, tid, post_index)` raises an
"unknown topic" error exactly when `tid` is not a key of the document;
raises an index-out-of-range error (its own "no such reply" raise or the
interpreter `IndexError`) exactly when `tid` is known but `post_index` is at
least the topic's post count; and returns normally exactly when `tid` is
known and `post_index` is within the post count. -/
theorem C5_render_error_partition (d : Doc) (tid : Nat) (n : Nat) :
    ((∃ r, construct_post_email_contents d tid n = .ok r) ↔
      (∃ t, alookup d tid = some t ∧ n < t.posts.length)) ∧
    (construct_post_email_contents d tid n = .error (.unknownTopic tid) ↔
      alookup d tid = none) ∧
    ((∃ e, construct_post_email_contents d tid n = .error e ∧ isIndexErr e = true) ↔
      (∃ t, alookup d tid = some t ∧ t.posts.length ≤ n)) := by
  cases h : alookup d tid with
  | none =>
    rw [construct_of_unknown d tid n h]
    refine ⟨?_, ?_, ?_⟩ <;> simp [isIndexErr]
  | some t =>
    by_cases hgt : t.posts.length < n
    · rw [construct_of_gt d tid n t h hgt]
      refine ⟨?_, ?_, ?_⟩ <;> simp [isIndexErr] <;> omega
    · by_cases hlt : n < t.posts.length
      · obtain ⟨r, hr⟩ := construct_isOk d tid n t h hlt
        rw [hr]
        refine ⟨?_, ?_, ?_⟩ <;> simp [isIndexErr] <;> omega
      · have hn : n = t.posts.length := by omega
        subst hn
        rw [construct_of_eq d tid t h]
        refine ⟨?_, ?_, ?_⟩ <;> simp [isIndexErr]

/-- The displayed form of a topic title: truncated to its first 36
characters plus `"..."` exactly when longer than 39 characters. -/
def displayTitle (title : String) : String :=
  if title.length > 39 then strTake title 36 ++ "..." else title

/-- The header block of a rendered post as the specification lists it: the
fixed transfer lead-in for the first post only, the `Post <n+1> of Topic
"<title>"` line with the truncated title, the created line, the updated
line only when the timestamps differ, the attachment line only when an
image reference is present, and the author line followed by a blank line. -/
def renderHeader (t : TopicEntry) (post : Post) (n : Nat) : String :=
  (if n = 0 then "Topic posted by Discourse-to-Google-Groups forum transfer.\n" else "") ++
  ("Post " ++ toString (n + 1) ++ " of Topic \"" ++ displayTitle t.title ++ "\"\n") ++
  ("Post Created: " ++ post.created ++ "\n") ++
  (if post.created ≠ post.updated then "Post Updated: " ++ post.updated ++ "\n" else "") ++
  (match post.image_url with
   | some u => "Attached Image URL: " ++ u ++ "\n"
   | none => "") ++
  ("Post Author " ++ post.author ++ " wrote:\n\n")

/-- C6: for every known topic and in-range post index the renderer returns
exactly the header block followed by the raw body and triple spacing as the
plaintext, and the same header with every newline replaced by `<br />`
before the cooked body and three break tags as the HTML. -/
theorem C6_render_exact (d : Doc) (tid : Nat) (n : Nat) (t : TopicEntry) (post : Post)
    (ht : alookup d tid = some t) (hp : t.posts[n]? = some post) :
    construct_post_email_contents d tid n =
      .ok (renderHeader t post n ++ post.raw ++ "\n\n\n",
           replaceNewlines (renderHeader t post n) ++ post.cooked ++ "<br /><br /><br />") := by
  have hlt : ¬ (t.posts.length < n) := by
    have := (List.getElem?_eq_some.mp hp).1
    omega
  simp only [construct_post_email_contents, ht, hlt, if_false, hp, renderHeader, displayTitle]
  split <;> split <;> split <;> split <;>
    simp only [String.append_assoc, String.empty_append, String.append_empty]

/-- Modelled from the spec (§4.3 Attachment Resolver): the resolution rules
in order — absent for a null reference; absent for an http(s) reference;
otherwise rewrite a configured internal-upload prefix to the local uploads
directory; after any rewrite, absent unless the resulting path exists, else
that path. -/
def resolveSpec (fs : String → Bool) (ref : Option String) : Option String :=
  match ref with
  | none => none
  | some u =>
    if strStartsWith u "http://" || strStartsWith u "https://" then none
    else
      let p :=
        if strStartsWith u INTERNAL_UPLOAD_PATH_PREFIX then
          PATH_TO_UPLOADS_DIR ++ strDrop u INTERNAL_UPLOAD_PATH_PREFIX.length
        else u
      if fs p then some p else none

/-- Helper: the resolver agrees with the spec's ordered rules on every post
of a known topic (shared by the C7 claim theorem and the scheduler proofs). -/
theorem process_image_url_eq_resolveSpec (fs : String → Bool) (d : Doc) (tid : Nat) (n : Nat)
    (t : TopicEntry) (post : Post)
    (ht : alookup d tid = some t) (hp : t.posts[n]? = some post) :
    process_image_url fs d tid n = .ok (resolveSpec fs post.image_url) := by
  simp only [process_image_url, resolveSpec, ht, hp]
  cases post.image_url with
  | none => rfl
  | some u =>
    simp only []
    split
    · rfl
    · split
      · cases hv : fs (PATH_TO_UPLOADS_DIR ++ strDrop u INTERNAL_UPLOAD_PATH_PREFIX.length) <;>
          simp [hv]
      · cases hv : fs u <;> simp [hv]

/-- C7: for every post of a known topic, attachment resolution never raises
and returns exactly what the spec's ordered rules prescribe: absent for a
null reference, absent for an http(s) reference, internal-upload prefix
rewritten to the local uploads directory, absent unless the resulting path
exists, else that path. -/
theorem C7_resolver_rules (fs : String → Bool) (d : Doc) (tid : Nat) (n : Nat)
    (t : TopicEntry) (post : Post)
    (ht : alookup d tid = some t) (hp : t.posts[n]? = some post) :
    process_image_url fs d tid n = .ok (resolveSpec fs post.image_url) :=
  process_image_url_eq_resolveSpec fs d tid n t post ht hp

/-! ## Invariance of the document under thread-id writes

The breadth-first scheduler mutates only the `thread_id` slots of the
document.  `strip1` erases that slot; two documents equal after stripping
agree on everything the renderer, the resolver and the post counts read. -/

/-- Erase the scheduler-mutable slot of a topic entry. -/
def strip1 (t : TopicEntry) : TopicEntry := { t with thread_id := none }

/-- Erase every scheduler-mutable slot of a document. -/
def stripped (d : Doc) : Doc := d.map (fun p => (p.1, strip1 p.2))

/-- The number of posts of topic `tid` (`len(d[tid]['posts'])`; 0 when the
topic is unknown). -/
def postCount (d : Doc) (tid : Nat) : Nat :=
  match alookup d tid with
  | none => 0
  | some t => t.posts.length

theorem alookup_stripped (d : Doc) (tid : Nat) :
    alookup (stripped d) tid = (alookup d tid).map strip1 := by
  induction d with
  | nil => rfl
  | cons p rest ih =>
    by_cases h : p.1 = tid <;> simp [stripped, alookup, h] at ih ⊢ <;> simpa [stripped] using ih

theorem setThread_cons (k : Nat) (w : TopicEntry) (rest : Doc) (tid : Nat) (v : Option String) :
    setThread ((k, w) :: rest) tid v =
      (if k = tid then (k, { w with thread_id := v }) else (k, w)) :: setThread rest tid v := rfl

theorem alookup_setThread (d : Doc) (tid tid' : Nat) (v : Option String) :
    alookup (setThread d tid v) tid' =
      if tid' = tid then (alookup d tid').map (fun t => { t with thread_id := v })
      else alookup d tid' := by
  induction d with
  | nil => simp [setThread, alookup]
  | cons p rest ih =>
    obtain ⟨k, w⟩ := p
    rw [setThread_cons]
    by_cases hp : k = tid
    · rw [if_pos hp]
      by_cases hq : k = tid'
      · have htt : tid' = tid := hq.symm.trans hp
        rw [if_pos htt]
        simp [alookup, hq]
      · have hne : ¬ tid' = tid := fun h => hq (hp.trans h.symm)
        rw [if_neg hne]
        simp [alookup, hq, ih, hne]
    · rw [if_neg hp]
      by_cases hq : k = tid'
      · have hne : ¬ tid' = tid := fun h => hp (hq.trans h)
        rw [if_neg hne]
        simp [alookup, hq]
      · by_cases htt : tid' = tid
        · subst htt
          simp [alookup, hp, hq, ih]
        · rw [if_neg htt]
          simp [alookup, hp, hq, ih, htt]

theorem stripped_setThread (d : Doc) (tid : Nat) (v : Option String) :
    stripped (setThread d tid v) = stripped d := by
  induction d with
  | nil => rfl
  | cons p rest ih =>
    by_cases h : p.1 = tid <;> simp [setThread, stripped, strip1, h] at ih ⊢ <;> exact ih

/-- Two documents equal after stripping have entries equal after stripping. -/
theorem alookup_of_stripped_eq {d d' : Doc} (h : stripped d = stripped d') (tid : Nat) :
    (alookup d tid).map strip1 = (alookup d' tid).map strip1 := by
  rw [← alookup_stripped, ← alookup_stripped, h]

theorem strip1_posts (t : TopicEntry) : (strip1 t).posts = t.posts := rfl

theorem strip1_title (t : TopicEntry) : (strip1 t).title = t.title := rfl

theorem postCount_of_stripped_eq {d d' : Doc} (h : stripped d = stripped d') (tid : Nat) :
    postCount d tid = postCount d' tid := by
  have hmap := alookup_of_stripped_eq h tid
  cases h1 : alookup d tid <;> cases h2 : alookup d' tid <;>
    simp [h1, h2, strip1] at hmap <;> simp [postCount, h1, h2]
  obtain ⟨h_author, h_title, h_created, h_posts⟩ := hmap
  rw [h_posts]

/-- The renderer reads only stripped data. -/
theorem construct_of_stripped_eq {d d' : Doc} (h : stripped d = stripped d')
    (tid n : Nat) :
    construct_post_email_contents d tid n = construct_post_email_contents d' tid n := by
  have hmap := alookup_of_stripped_eq h tid
  cases h1 : alookup d tid <;> cases h2 : alookup d' tid <;>
    simp [h1, h2, strip1] at hmap
  · simp [construct_post_email_contents, h1, h2]
  · rename_i t t'
    obtain ⟨h_author, h_title, h_created, h_posts⟩ := hmap
    simp only [construct_post_email_contents, h1, h2, h_title, h_posts]

/-- The resolver reads only stripped data. -/
theorem process_image_url_of_stripped_eq {d d' : Doc} (h : stripped d = stripped d')
    (fs : String → Bool) (tid n : Nat) :
    process_image_url fs d tid n = process_image_url fs d' tid n := by
  have hmap := alookup_of_stripped_eq h tid
  cases h1 : alookup d tid <;> cases h2 : alookup d' tid <;>
    simp [h1, h2, strip1] at hmap
  · simp [process_image_url, h1, h2]
  · rename_i t t'
    obtain ⟨h_author, h_title, h_created, h_posts⟩ := hmap
    simp only [process_image_url, h1, h2, h_posts]

/-- The resolver returns normally on a known topic and in-range index. -/
theorem process_image_url_isOk (fs : String → Bool) (d : Doc) (tid n : Nat)
    (t : TopicEntry) (h : alookup d tid = some t) (hn : n < t.posts.length) :
    ∃ v, process_image_url fs d tid n = .ok v := by
  obtain ⟨post, hget⟩ : ∃ post, t.posts[n]? = some post :=
    ⟨t.posts[n], List.getElem?_eq_some.mpr ⟨hn, rfl⟩⟩
  exact ⟨resolveSpec fs post.image_url, process_image_url_eq_resolveSpec fs d tid n t post h hget⟩

/-! ## The sequential mode, on an all-acknowledging transport -/

/-- Behaviour of the reply loop of `mail_topic_as_posts` when every send is
acknowledged: it emits one event per remaining index, in order, each send
carrying the fixed thread id, the id returned by the immediately preceding
send as its reply reference, and its post's resolved attachment. -/
theorem seqLoop_ok (tr : Nat → SendResult) (fs : String → Bool) (d : Doc) (tid : Nat)
    (th : String) (t : TopicEntry) (ht : alookup d tid = some t)
    (hack : ∀ k, isAck (tr k) = true) :
    ∀ (n i0 : Nat) (prev : String) (evs0 : List SendEvent),
      1 ≤ i0 → i0 + n ≤ t.posts.length → prev = resId (tr (i0 - 1)) →
      ∃ evs, seqLoop tr fs d tid th (List.range' i0 n) prev evs0 = .ok (evs0 ++ evs) ∧
        evs.map (fun e => e.idx) = List.range' i0 n ∧
        (∀ e ∈ evs, e.tid = tid ∧ e.k = e.idx ∧ e.call.threadId = some th ∧
          e.call.reply_to = some (resId (tr (e.idx - 1))) ∧
          process_image_url fs d tid e.idx = .ok e.call.attachment) := by
  intro n
  induction n with
  | zero =>
    intro i0 prev evs0 _ _ _
    exact ⟨[], by simp [seqLoop], by simp, by simp⟩
  | succ n ih =>
    intro i0 prev evs0 hi0 hbound hprev
    rw [List.range'_succ]
    have hlt : i0 < t.posts.length := by omega
    obtain ⟨r, hcr⟩ := construct_isOk d tid i0 t ht hlt
    obtain ⟨tp, thtml⟩ := r
    obtain ⟨img, himg⟩ := process_image_url_isOk fs d tid i0 t ht hlt
    obtain ⟨evs', hrun, hmap, hall⟩ :=
      ih (i0 + 1) (resId (tr i0)) (evs0 ++ [⟨i0, tid, i0, ⟨t.title, thtml, tp, img, some th, some prev⟩⟩])
        (by omega) (by omega) (by simp)
    refine ⟨⟨i0, tid, i0, ⟨t.title, thtml, tp, img, some th, some prev⟩⟩ :: evs', ?_, ?_, ?_⟩
    · simp only [seqLoop, hcr, himg, ht, hack i0, if_true]
      rw [hrun, List.append_assoc]
      rfl
    · simp [hmap]
    · intro e he
      rcases List.mem_cons.mp he with he0 | he'
      · subst he0
        refine ⟨rfl, rfl, rfl, ?_, ?_⟩
        · simp [hprev]
        · simpa using himg
      · exact hall e he'

/-- Behaviour of `mail_topic_as_posts` when every send is acknowledged: one
event per post, in increasing position order; the first send carries no
thread id, no reply reference and no attachment; every later send carries
the thread id returned by the first send, the message id returned by the
immediately preceding send, and its post's resolved attachment. -/
theorem mail_topic_as_posts_ok (tr : Nat → SendResult) (fs : String → Bool)
    (d : Doc) (tid : Nat) (t : TopicEntry) (ht : alookup d tid = some t)
    (hne : 1 ≤ t.posts.length) (hack : ∀ k, isAck (tr k) = true) :
    ∃ evs, mail_topic_as_posts tr fs d tid = .ok evs ∧
      evs.map (fun e => e.idx) = List.range t.posts.length ∧
      (∀ e ∈ evs, e.tid = tid ∧ e.k = e.idx) ∧
      (∀ e ∈ evs, e.idx = 0 →
        e.call.threadId = none ∧ e.call.reply_to = none ∧ e.call.attachment = none) ∧
      (∀ e ∈ evs, 1 ≤ e.idx →
        e.call.threadId = some (resThread (tr 0)) ∧
        e.call.reply_to = some (resId (tr (e.idx - 1))) ∧
        process_image_url fs d tid e.idx = .ok e.call.attachment) := by
  obtain ⟨r, hcr⟩ := construct_isOk d tid 0 t ht hne
  obtain ⟨tp, thtml⟩ := r
  obtain ⟨evs', hrun, hmap, hall⟩ :=
    seqLoop_ok tr fs d tid (resThread (tr 0)) t ht hack (t.posts.length - 1) 1
      (resId (tr 0)) [⟨0, tid, 0, ⟨t.title, thtml, tp, none, none, none⟩⟩]
      (by omega) (by omega) rfl
  refine ⟨⟨0, tid, 0, ⟨t.title, thtml, tp, none, none, none⟩⟩ :: evs', ?_, ?_, ?_, ?_, ?_⟩
  · simp only [mail_topic_as_posts, hcr, ht, hack 0, if_true]
    rw [hrun]
    rfl
  · rw [List.range_eq_range' t.posts.length]
    have : t.posts.length = (t.posts.length - 1) + 1 := by omega
    rw [this, List.range'_succ]
    simp [hmap]
  · intro e he
    rcases List.mem_cons.mp he with he0 | he'
    · subst he0
      exact ⟨rfl, rfl⟩
    · exact ⟨(hall e he').1, (hall e he').2.1⟩
  · intro e he h0
    rcases List.mem_cons.mp he with he0 | he'
    · subst he0
      exact ⟨rfl, rfl, rfl⟩
    · exfalso
      have : e.idx ∈ List.range' 1 (t.posts.length - 1) := by
        rw [← hmap]
        exact List.mem_map_of_mem _ he'
      have := (List.mem_range'_1.mp this).1
      omega
  · intro e he h1
    rcases List.mem_cons.mp he with he0 | he'
    · exfalso
      subst he0
      simp at h1
    · exact ⟨(hall e he').2.2.1, (hall e he').2.2.2.1, (hall e he').2.2.2.2⟩

/-- C2: in single-topic sequential mode, a topic with at least one post whose
sends are all acknowledged gets exactly one send per post, in strictly
increasing position order; the first send carries no thread identifier and
no reply reference, and every subsequent send carries the thread identifier
obtained from the first send's acknowledgment and the message identifier
returned by the immediately preceding send. -/
theorem C2_sequential_emission (tr : Nat → SendResult) (fs : String → Bool)
    (d : Doc) (tid : Nat) (t : TopicEntry) (ht : alookup d tid = some t)
    (hne : 1 ≤ t.posts.length) (hack : ∀ k, isAck (tr k) = true) :
    ∃ evs, mail_topic_as_posts tr fs d tid = .ok evs ∧
      evs.map (fun e => e.idx) = List.range t.posts.length ∧
      (∀ e ∈ evs, e.tid = tid) ∧
      (∀ e ∈ evs, e.idx = 0 → e.call.threadId = none ∧ e.call.reply_to = none) ∧
      (∀ e ∈ evs, 1 ≤ e.idx →
        e.call.threadId = some (resThread (tr 0)) ∧
        e.call.reply_to = some (resId (tr (e.idx - 1)))) := by
  obtain ⟨evs, hrun, hmap, htidk, h0, h1⟩ := mail_topic_as_posts_ok tr fs d tid t ht hne hack
  exact ⟨evs, hrun, hmap, fun e he => (htidk e he).1,
    fun e he hz => ⟨(h0 e he hz).1, (h0 e he hz).2.1⟩,
    fun e he ho => ⟨(h1 e he ho).1, (h1 e he ho).2.1⟩⟩

/-! ## The breadth-first mode, on an all-acknowledging transport -/

/-- The maximum post count across the selected topics (the spec's
"determine the maximum post count across all selected topics"). -/
def maxPostCount (d : Doc) (tids : List Nat) : Nat :=
  tids.foldl (fun m tid => max m (postCount d tid)) 0

/-- The (topic id, post position) pairs the spec's breadth-first mode
description emits, in order: `maxPostCount` rounds, and in round `r` one
send per selected topic that still has a post at position `r`, in selection
order. -/
def bfOrder (d : Doc) (tids : List Nat) : List (Nat × Nat) :=
  (List.range (maxPostCount d tids)).flatMap
    (fun r => (tids.filter (fun tid => decide (r < postCount d tid))).map (fun tid => (tid, r)))

theorem alookup_cons_isSome {β : Type} (k : Nat) (v : β) (p : List (Nat × β)) (tid : Nat)
    (h : (alookup p tid).isSome = true) : (alookup ((k, v) :: p) tid).isSome = true := by
  by_cases hk : k = tid <;> simp [alookup, hk, h]

theorem foldl_if_eq_foldl_max (d : Doc) (tids : List Nat) (most : Nat) :
    tids.foldl (fun m tid => if postCount d tid > m then postCount d tid else m) most =
      tids.foldl (fun m tid => max m (postCount d tid)) most := by
  refine List.foldl_ext _ _ most ?_
  intro m tid _
  by_cases hc : postCount d tid > m
  · rw [if_pos hc, max_eq_right (Nat.le_of_lt hc)]
  · rw [if_neg hc, max_eq_left (Nat.le_of_not_lt hc)]

theorem foldl_max_le_init (d : Doc) : ∀ (tids : List Nat) (most : Nat),
    most ≤ tids.foldl (fun m tid => max m (postCount d tid)) most := by
  intro tids
  induction tids with
  | nil => intro most; simp
  | cons a rest ih =>
    intro most
    simp only [List.foldl_cons]
    exact le_trans (le_max_left most (postCount d a)) (ih (max most (postCount d a)))

theorem le_foldl_max (d : Doc) : ∀ (tids : List Nat) (most tid : Nat), tid ∈ tids →
    postCount d tid ≤ tids.foldl (fun m tid => max m (postCount d tid)) most := by
  intro tids
  induction tids with
  | nil => intro most tid h; cases h
  | cons a rest ih =>
    intro most tid h
    simp only [List.foldl_cons]
    rcases List.mem_cons.mp h with h0 | h'
    · subst h0
      exact le_trans (le_max_right most (postCount d tid))
        (foldl_max_le_init d rest (max most (postCount d tid)))
    · exact ih (max most (postCount d a)) tid h'

/-- Behaviour of the breadth-first initialisation on valid topic ids: it
computes the source's running maximum of the post counts, nulls every
selected topic's thread id while changing nothing else, and seeds the
previous-message dict with an entry for every selected topic. -/
theorem bfInit_ok : ∀ (tids : List Nat) (d : Doc) (most : Nat) (prev : PrevMap),
    (∀ tid ∈ tids, (alookup d tid).isSome = true) →
    ∃ d' prev',
      bfInit d tids most prev =
        .ok (d', tids.foldl (fun m tid => if postCount d tid > m then postCount d tid else m) most,
          prev') ∧
      stripped d' = stripped d ∧
      (∀ tid, (alookup prev tid).isSome = true → (alookup prev' tid).isSome = true) ∧
      (∀ tid ∈ tids, (alookup prev' tid).isSome = true) ∧
      (∀ tid, (∃ t, alookup d tid = some t ∧ t.thread_id = none) →
        ∃ t, alookup d' tid = some t ∧ t.thread_id = none) ∧
      (∀ tid ∈ tids, ∃ t, alookup d' tid = some t ∧ t.thread_id = none) := by
  intro tids
  induction tids with
  | nil =>
    intro d most prev _
    exact ⟨d, prev, rfl, rfl, fun _ h => h, by simp, fun _ h => h, by simp⟩
  | cons tid rest ih =>
    intro d most prev hvalid
    obtain ⟨t, ht⟩ := Option.isSome_iff_exists.mp (hvalid tid (List.mem_cons_self tid rest))
    have hstrip1 : stripped (setThread d tid none) = stripped d := stripped_setThread d tid none
    have hvalid' : ∀ tid2 ∈ rest, (alookup (setThread d tid none) tid2).isSome = true := by
      intro tid2 h2
      obtain ⟨t2, ht2⟩ := Option.isSome_iff_exists.mp (hvalid tid2 (List.mem_cons_of_mem _ h2))
      rw [alookup_setThread]
      split <;> simp [ht2]
    obtain ⟨d', prev', hrun, hstrip, hpres, hmem, hnullpres, hnull⟩ :=
      ih (setThread d tid none) (if t.posts.length > most then t.posts.length else most)
        ((tid, none) :: prev) hvalid'
    have hpc : ∀ x, postCount (setThread d tid none) x = postCount d x :=
      fun x => postCount_of_stripped_eq hstrip1 x
    have hfold :
        rest.foldl
            (fun m x => if postCount (setThread d tid none) x > m
              then postCount (setThread d tid none) x else m)
            (if t.posts.length > most then t.posts.length else most) =
          rest.foldl (fun m x => if postCount d x > m then postCount d x else m)
            (if t.posts.length > most then t.posts.length else most) :=
      List.foldl_ext _ _ _ (fun m x _ => by rw [hpc x])
    refine ⟨d', prev', ?_, hstrip.trans hstrip1, ?_, ?_, ?_, ?_⟩
    · have hstep : bfInit d (tid :: rest) most prev =
          bfInit (setThread d tid none) rest
            (if t.posts.length > most then t.posts.length else most) ((tid, none) :: prev) := by
        simp only [bfInit, ht]
      rw [hstep, hrun]
      have hcnt : postCount d tid = t.posts.length := by simp [postCount, ht]
      rw [List.foldl_cons, hcnt, ← hfold]
    · intro tid2 h2
      exact hpres tid2 (alookup_cons_isSome tid none prev tid2 h2)
    · intro tid2 h2
      rcases List.mem_cons.mp h2 with h0 | h'
      · subst h0
        refine hpres tid2 ?_
        simp [alookup]
      · exact hmem tid2 h'
    · intro tid2 hex
      refine hnullpres tid2 ?_
      obtain ⟨t2, ht2, hth2⟩ := hex
      rw [alookup_setThread]
      split
      · exact ⟨{ t2 with thread_id := none }, by simp [ht2], rfl⟩
      · exact ⟨t2, ht2, hth2⟩
    · intro tid2 h2
      rcases List.mem_cons.mp h2 with h0 | h'
      · subst h0
        refine hnullpres tid2 ?_
        rw [alookup_setThread, if_pos rfl, ht]
        exact ⟨{ t with thread_id := none }, rfl, rfl⟩
      · exact hnull tid2 h'

/-- Behaviour of one breadth-first round on an all-acknowledging transport:
each selected topic still owning a post at position `r` produces exactly one
send event at position `r` carrying its resolved attachment, in selection
order; the document changes only in its thread-id slots; the thread-write
log gains exactly one entry per acknowledged send, recording that
acknowledgment's threadId. -/
theorem bfRoundTids_ok (tr : Nat → SendResult) (fs : String → Bool) (d0 : Doc)
    (hack : ∀ k, isAck (tr k) = true) (r : Nat) :
    ∀ (tids2 : List Nat) (st : BfState),
      stripped st.d = stripped d0 →
      (∀ tid ∈ tids2, (alookup d0 tid).isSome = true) →
      (∀ tid ∈ tids2, (alookup st.prev tid).isSome = true) →
      ∃ st', bfRoundTids tr fs r st tids2 = .ok st' ∧
        stripped st'.d = stripped d0 ∧
        (∀ tid, (alookup st.prev tid).isSome = true → (alookup st'.prev tid).isSome = true) ∧
        (st.writes = st.trace.map (fun e => (e.tid, resThread (tr e.k))) →
          st'.writes = st'.trace.map (fun e => (e.tid, resThread (tr e.k)))) ∧
        ∃ evs, st'.trace = st.trace ++ evs ∧
          evs.map (fun e => (e.tid, e.idx)) =
            (tids2.filter (fun tid => decide (r < postCount d0 tid))).map (fun tid => (tid, r)) ∧
          (∀ e ∈ evs, e.idx = r ∧ process_image_url fs d0 e.tid e.idx = .ok e.call.attachment) := by
  intro tids2
  induction tids2 with
  | nil =>
    intro st hstrip hvalid hprev
    exact ⟨st, rfl, hstrip, fun _ h => h, fun h => h, [], by simp, by simp, by simp⟩
  | cons tid rest ih =>
    intro st hstrip hvalid hprev
    obtain ⟨t0, ht0⟩ := Option.isSome_iff_exists.mp (hvalid tid (List.mem_cons_self tid rest))
    have hmap := alookup_of_stripped_eq hstrip tid
    rw [ht0] at hmap
    cases hst : alookup st.d tid with
    | none =>
      rw [hst] at hmap
      simp at hmap
    | some t =>
      rw [hst] at hmap
      simp only [Option.map_some'] at hmap
      have hmape : strip1 t = strip1 t0 := Option.some.inj hmap
      have hposts : t.posts = t0.posts := by
        have := congrArg TopicEntry.posts hmape
        simpa [strip1] using this
      have hcnt : postCount d0 tid = t.posts.length := by simp [postCount, ht0, hposts]
      by_cases hskip : r ≥ t.posts.length
      · have hfilter : decide (r < postCount d0 tid) = false := by
          rw [hcnt]
          simp
          omega
        obtain ⟨st', hrun, hs, hp, hw, evs, htr, hproj, hall⟩ :=
          ih st hstrip (fun x hx => hvalid x (List.mem_cons_of_mem _ hx))
            (fun x hx => hprev x (List.mem_cons_of_mem _ hx))
        refine ⟨st', ?_, hs, hp, hw, evs, htr, ?_, hall⟩
        · simp only [bfRoundTids, hst]
          rw [if_pos hskip]
          exact hrun
        · simpa [List.filter_cons, hfilter] using hproj
      · have hlt : r < t.posts.length := by omega
        have hfilter : decide (r < postCount d0 tid) = true := by
          rw [hcnt]
          simp
          omega
        obtain ⟨rc, hcr⟩ := construct_isOk st.d tid r t hst hlt
        obtain ⟨tp, thtml⟩ := rc
        obtain ⟨img, himg⟩ := process_image_url_isOk fs st.d tid r t hst hlt
        obtain ⟨pm, hpm⟩ := Option.isSome_iff_exists.mp (hprev tid (List.mem_cons_self tid rest))
        obtain ⟨st', hrun, hs, hp, hw, evs, htr, hproj, hall⟩ :=
          ih ⟨setThread st.d tid (some (resThread (tr st.k))),
              (tid, some (resId (tr st.k))) :: st.prev,
              st.k + 1,
              st.trace ++ [⟨st.k, tid, r, ⟨t.title, thtml, tp, img, t.thread_id, pm⟩⟩],
              st.writes ++ [(tid, resThread (tr st.k))]⟩
            ((stripped_setThread st.d tid _).trans hstrip)
            (fun x hx => hvalid x (List.mem_cons_of_mem _ hx))
            (fun x hx => alookup_cons_isSome tid _ st.prev x
              (hprev x (List.mem_cons_of_mem _ hx)))
        refine ⟨st', ?_, hs, ?_, ?_,
          ⟨st.k, tid, r, ⟨t.title, thtml, tp, img, t.thread_id, pm⟩⟩ :: evs, ?_, ?_, ?_⟩
        · simp only [bfRoundTids, hst]
          rw [if_neg hskip]
          simp only [hcr, himg, hpm, hack st.k, if_true]
          exact hrun
        · intro x hx
          exact hp x (alookup_cons_isSome tid _ st.prev x hx)
        · intro hwr
          apply hw
          simp only [List.map_append, ← hwr, List.map_cons, List.map_nil]
        · rw [htr, List.append_assoc]
          rfl
        · simpa [List.filter_cons, hfilter] using hproj
        · intro e he
          rcases List.mem_cons.mp he with he0 | he'
          · subst he0
            refine ⟨rfl, ?_⟩
            rw [process_image_url_of_stripped_eq hstrip.symm fs tid r]
            exact himg
          · exact hall e he'

/-- Behaviour of the sequence of breadth-first rounds on an
all-acknowledging transport: one block of sends per round, each block as
described by `bfRoundTids_ok`. -/
theorem bfRounds_ok (tr : Nat → SendResult) (fs : String → Bool) (d0 : Doc)
    (tids : List Nat) (hack : ∀ k, isAck (tr k) = true)
    (hvalid : ∀ tid ∈ tids, (alookup d0 tid).isSome = true) :
    ∀ (rs : List Nat) (st : BfState),
      stripped st.d = stripped d0 →
      (∀ tid ∈ tids, (alookup st.prev tid).isSome = true) →
      ∃ st', bfRounds tr fs tids st rs = .ok st' ∧
        stripped st'.d = stripped d0 ∧
        (∀ tid ∈ tids, (alookup st'.prev tid).isSome = true) ∧
        (st.writes = st.trace.map (fun e => (e.tid, resThread (tr e.k))) →
          st'.writes = st'.trace.map (fun e => (e.tid, resThread (tr e.k)))) ∧
        ∃ evs, st'.trace = st.trace ++ evs ∧
          evs.map (fun e => (e.tid, e.idx)) =
            rs.flatMap (fun r =>
              (tids.filter (fun tid => decide (r < postCount d0 tid))).map
                (fun tid => (tid, r))) ∧
          (∀ e ∈ evs, process_image_url fs d0 e.tid e.idx = .ok e.call.attachment) := by
  intro rs
  induction rs with
  | nil =>
    intro st hstrip hprev
    exact ⟨st, rfl, hstrip, hprev, fun h => h, [], by simp, by simp, by simp⟩
  | cons r rs ih =>
    intro st hstrip hprev
    obtain ⟨st1, hrun1, hs1, hp1, hw1, evs1, htr1, hproj1, hall1⟩ :=
      bfRoundTids_ok tr fs d0 hack r tids st hstrip hvalid hprev
    obtain ⟨st', hrun, hs, hp, hw, evs, htr, hproj, hall⟩ :=
      ih st1 hs1 (fun x hx => hp1 x (hprev x hx))
    refine ⟨st', ?_, hs, hp, ?_, evs1 ++ evs, ?_, ?_, ?_⟩
    · simp only [bfRounds, hrun1]
      exact hrun
    · intro hwr
      exact hw (hw1 hwr)
    · rw [htr, htr1, List.append_assoc]
    · rw [List.flatMap_cons, List.map_append, hproj1, hproj]
    · intro e he
      rcases List.mem_append.mp he with h1 | h2
      · exact (hall1 e h1).2
      · exact hall e h2

/-- Full behaviour of `mail_topics_as_posts_bf` on valid topic ids and an
all-acknowledging transport: the run succeeds, its sends are exactly the
spec's breadth-first (topic, position) pairs in round order, every send
carries its post's resolved attachment, and the thread-id write log records
exactly one write per acknowledged send — that acknowledgment's threadId,
in send order. -/
theorem mail_topics_as_posts_bf_ok (tr : Nat → SendResult) (fs : String → Bool)
    (d : Doc) (tids : List Nat)
    (hvalid : ∀ tid ∈ tids, (alookup d tid).isSome = true)
    (hack : ∀ k, isAck (tr k) = true) :
    ∃ st, mail_topics_as_posts_bf tr fs d tids = .ok st ∧
      st.trace.map (fun e => (e.tid, e.idx)) = bfOrder d tids ∧
      st.writes = st.trace.map (fun e => (e.tid, resThread (tr e.k))) ∧
      (∀ e ∈ st.trace, process_image_url fs d e.tid e.idx = .ok e.call.attachment) := by
  obtain ⟨d1, prev1, hinit, hstrip1, hpres1, hmem1, hnullpres1, hnull1⟩ :=
    bfInit_ok tids d 0 [] hvalid
  obtain ⟨st', hrun, hs, hp, hw, evs, htr, hproj, hall⟩ :=
    bfRounds_ok tr fs d tids hack hvalid
      (List.range
        (tids.foldl (fun m tid => if postCount d tid > m then postCount d tid else m) 0))
      ⟨d1, prev1, 0, [], []⟩ hstrip1 hmem1
  refine ⟨st', ?_, ?_, ?_, ?_⟩
  · simp only [mail_topics_as_posts_bf, hinit]
    exact hrun
  · rw [htr]
    simp only [List.nil_append]
    rw [hproj]
    simp only [bfOrder, maxPostCount]
    rw [foldl_if_eq_foldl_max d tids 0]
  · exact hw rfl
  · intro e he
    rw [htr] at he
    simp only [List.nil_append] at he
    exact hall e he

/-! ## Claim theorems on the schedulers -/

/-- C1: in breadth-first mode, over selected topic ids that all exist and
with every send acknowledged, the run succeeds and issues exactly the sends
of `bfOrder`: `maxPostCount` rounds, and in round `r` (0-indexed) exactly
one send at position `r` for every selected topic having a post at that
position, topics with fewer than `r+1` posts being skipped. -/
theorem C1_breadth_first_rounds (tr : Nat → SendResult) (fs : String → Bool)
    (d : Doc) (tids : List Nat)
    (hvalid : ∀ tid ∈ tids, (alookup d tid).isSome = true)
    (hack : ∀ k, isAck (tr k) = true) :
    ∃ st, mail_topics_as_posts_bf tr fs d tids = .ok st ∧
      st.trace.map (fun e => (e.tid, e.idx)) = bfOrder d tids := by
  obtain ⟨st, hrun, hproj, _, _⟩ := mail_topics_as_posts_bf_ok tr fs d tids hvalid hack
  exact ⟨st, hrun, hproj⟩

/-- C4 (amended): every selected topic's thread identifier is null right
after scheduler initialisation; but in an acknowledged breadth-first run it
is not assigned exactly once — the write log holds exactly one write per
acknowledged send of the topic (not per topic), each recording that send's
acknowledgment threadId. -/
theorem C4_thread_state_lifecycle (tr : Nat → SendResult) (fs : String → Bool)
    (d : Doc) (tids : List Nat)
    (hvalid : ∀ tid ∈ tids, (alookup d tid).isSome = true)
    (hack : ∀ k, isAck (tr k) = true) :
    (∀ d1 most prev1, bfInit d tids 0 [] = .ok (d1, most, prev1) →
      ∀ tid ∈ tids, ∃ t, alookup d1 tid = some t ∧ t.thread_id = none) ∧
    (∃ st, mail_topics_as_posts_bf tr fs d tids = .ok st ∧
      st.writes = st.trace.map (fun e => (e.tid, resThread (tr e.k)))) := by
  constructor
  · intro d1 most prev1 hinit tid htid
    obtain ⟨d1', prev1', hinit', _, _, _, _, hnull⟩ := bfInit_ok tids d 0 [] hvalid
    have heq := Except.ok.inj (hinit.symm.trans hinit')
    have hd1 : d1 = d1' := congrArg Prod.fst heq
    rw [hd1]
    exact hnull tid htid
  · obtain ⟨st, hrun, _, hwr, _⟩ := mail_topics_as_posts_bf_ok tr fs d tids hvalid hack
    exact ⟨st, hrun, hwr⟩

/-- C8 (amended): in breadth-first mode every sent (topic, position) pair's
send carries exactly the Attachment Resolver's result for that pair; in
sequential mode this holds for every position at least 1, but the topic's
first post is sent without consulting the resolver and with no
attachment. -/
theorem C8_attachment_per_send (tr : Nat → SendResult) (fs : String → Bool)
    (d : Doc) (tids : List Nat) (tid : Nat) (t : TopicEntry)
    (hvalid : ∀ x ∈ tids, (alookup d x).isSome = true)
    (ht : alookup d tid = some t) (hne : 1 ≤ t.posts.length)
    (hack : ∀ k, isAck (tr k) = true) :
    (∃ st, mail_topics_as_posts_bf tr fs d tids = .ok st ∧
      ∀ e ∈ st.trace, process_image_url fs d e.tid e.idx = .ok e.call.attachment) ∧
    (∃ evs, mail_topic_as_posts tr fs d tid = .ok evs ∧
      (∀ e ∈ evs, 1 ≤ e.idx → process_image_url fs d tid e.idx = .ok e.call.attachment) ∧
      (∀ e ∈ evs, e.idx = 0 → e.call.attachment = none)) := by
  constructor
  · obtain ⟨st, hrun, _, _, hatt⟩ := mail_topics_as_posts_bf_ok tr fs d tids hvalid hack
    exact ⟨st, hrun, hatt⟩
  · obtain ⟨evs, hrun, _, _, h0, h1⟩ := mail_topic_as_posts_ok tr fs d tid t ht hne hack
    exact ⟨evs, hrun, fun e he ho => (h1 e he ho).2.2, fun e he hz => (h0 e he hz).2.2⟩

/-! ## The failure path -/

/-- When no send is ever acknowledged, round 0 aborts at the first selected
topic that owns a post, through the breadth-first failure branch — whose
raise expression reads the undefined name `i`, so the abort surfaces as a
NameError rather than as the intended descriptive exception. -/
theorem bfRoundTids_fail (tr : Nat → SendResult) (fs : String → Bool) (d0 : Doc)
    (hfail : ∀ k, isAck (tr k) = false) :
    ∀ (tids2 : List Nat) (st : BfState),
      stripped st.d = stripped d0 →
      (∀ tid ∈ tids2, (alookup d0 tid).isSome = true) →
      (∀ tid ∈ tids2, (alookup st.prev tid).isSome = true) →
      (∃ tid ∈ tids2, 1 ≤ postCount d0 tid) →
      ∃ evs2, bfRoundTids tr fs 0 st tids2 = .error (.nameError "i", evs2) := by
  intro tids2
  induction tids2 with
  | nil =>
    intro st _ _ _ hex
    obtain ⟨tid, htid, _⟩ := hex
    cases htid
  | cons tid rest ih =>
    intro st hstrip hvalid hprev hex
    obtain ⟨t0, ht0⟩ := Option.isSome_iff_exists.mp (hvalid tid (List.mem_cons_self tid rest))
    have hmap := alookup_of_stripped_eq hstrip tid
    rw [ht0] at hmap
    cases hst : alookup st.d tid with
    | none =>
      rw [hst] at hmap
      simp at hmap
    | some t =>
      rw [hst] at hmap
      simp only [Option.map_some'] at hmap
      have hmape : strip1 t = strip1 t0 := Option.some.inj hmap
      have hposts : t.posts = t0.posts := by
        have := congrArg TopicEntry.posts hmape
        simpa [strip1] using this
      have hcnt : postCount d0 tid = t.posts.length := by simp [postCount, ht0, hposts]
      by_cases hskip : (0:Nat) ≥ t.posts.length
      · obtain ⟨x, hx, hpx⟩ := hex
        rcases List.mem_cons.mp hx with h0 | h'
        · exfalso
          subst h0
          omega
        · obtain ⟨evs2, hrun⟩ := ih st hstrip
            (fun y hy => hvalid y (List.mem_cons_of_mem _ hy))
            (fun y hy => hprev y (List.mem_cons_of_mem _ hy)) ⟨x, h', hpx⟩
          refine ⟨evs2, ?_⟩
          simp only [bfRoundTids, hst]
          rw [if_pos hskip]
          exact hrun
      · have hlt : 0 < t.posts.length := by omega
        obtain ⟨rc, hcr⟩ := construct_isOk st.d tid 0 t hst hlt
        obtain ⟨tp, thtml⟩ := rc
        obtain ⟨img, himg⟩ := process_image_url_isOk fs st.d tid 0 t hst hlt
        obtain ⟨pm, hpm⟩ := Option.isSome_iff_exists.mp (hprev tid (List.mem_cons_self tid rest))
        refine ⟨st.trace ++ [⟨st.k, tid, 0, ⟨t.title, thtml, tp, img, t.thread_id, pm⟩⟩], ?_⟩
        simp only [bfRoundTids, hst]
        rw [if_neg hskip]
        simp only [hcr, himg, hpm, hfail st.k, if_false]
        rfl

/-- C10: an HTTP error in the underlying mail-API call does not raise out of
`SendMessage`: `SendMessageInternal` catches it and returns the plain string
`"Error"`, which fails the scheduler's result-shape check (not a dict), and
a breadth-first run whose sends all go through such a failing API aborts. -/
theorem C10_http_error_is_caught (api : Nat → ApiOutcome) (fs : String → Bool)
    (d : Doc) (tids : List Nat)
    (herr : ∀ k, ∃ s, api k = .httpError s)
    (hvalid : ∀ tid ∈ tids, (alookup d tid).isSome = true)
    (hpost : ∃ tid ∈ tids, 1 ≤ postCount d tid) :
    (∀ k, SendMessageInternal (api k) = .str "Error") ∧
    (∀ k, isAck (SendMessageInternal (api k)) = false) ∧
    (∃ err, mail_topics_as_posts_bf (fun k => SendMessageInternal (api k)) fs d tids =
      .error err) := by
  have hstr : ∀ k, SendMessageInternal (api k) = .str "Error" := by
    intro k
    obtain ⟨s, hs⟩ := herr k
    rw [hs]
    rfl
  have hfail : ∀ k, isAck (SendMessageInternal (api k)) = false := by
    intro k
    rw [hstr k]
    rfl
  refine ⟨hstr, hfail, ?_⟩
  obtain ⟨d1, prev1, hinit, hstrip1, _, hmem1, _, _⟩ := bfInit_ok tids d 0 [] hvalid
  have hmost : 1 ≤ tids.foldl
      (fun m tid => if postCount d tid > m then postCount d tid else m) 0 := by
    obtain ⟨tid, htid, hp⟩ := hpost
    calc 1 ≤ postCount d tid := hp
      _ ≤ _ := by
          rw [foldl_if_eq_foldl_max]
          exact le_foldl_max d tids 0 tid htid
  obtain ⟨evs2, hround⟩ := bfRoundTids_fail (fun k => SendMessageInternal (api k)) fs d hfail
    tids ⟨d1, prev1, 0, [], []⟩ hstrip1 hvalid hmem1 hpost
  refine ⟨(.nameError "i", evs2), ?_⟩
  simp only [mail_topics_as_posts_bf, hinit]
  obtain ⟨m, hm⟩ : ∃ m,
      tids.foldl (fun m tid => if postCount d tid > m then postCount d tid else m) 0 = m + 1 :=
    ⟨tids.foldl (fun m tid => if postCount d tid > m then postCount d tid else m) 0 - 1,
      by omega⟩
  rw [hm, List.range_eq_range', List.range'_succ]
  simp only [bfRounds, hround]

/-! ## generate_single_dict: the Snapshot Builder

Raw rows are fixed-position tuples in the source; the column indices
(`P_*`, `T_*`, `U_*`) select the fields modelled below.  A nullable user-id
column is an `Option Nat`; timestamp columns are modelled by the ISO-8601
string their `.isoformat()` call produces. -/

/-- A row of the users table: columns `U_UID`, `U_UNAME`, `U_NAME`,
`U_EMAIL`. -/
structure RawUser where
  uid : Nat
  username : String
  name : String
  email : String
deriving DecidableEq, Repr

/-- A row of the topics table: columns `T_TID`, `T_UID`, `T_TITLE`,
`T_CREATED`. -/
structure RawTopic where
  tid : Nat
  uid : Option Nat
  title : String
  created : String
deriving DecidableEq, Repr

/-- A row of the posts table: columns `P_TID`, `P_UID`, `P_CREATED`,
`P_UPDATED`, `P_RAW`, `P_COOKED`, `P_IMGURL`. -/
structure RawPost where
  tid : Nat
  uid : Option Nat
  created : String
  updated : String
  raw : String
  cooked : String
  image_url : Option String
deriving DecidableEq, Repr

/-- The interpreter `KeyError`s the builder can hit: a user lookup
(`usernames[uid]` with `uid` null or not a key) or a topic lookup
(`d[tid]` for a post whose topic is not in the topic set). -/
inductive BuildError where
  | keyErrorUser (uid : Option Nat)
  | keyErrorTopic (tid : Nat)
deriving DecidableEq, Repr

/-- The `usernames` / `names` / `emails` lookup dicts built by the first
pass over users (lines 204-209).  Later rows overwrite earlier ones exactly
as dict assignment does, which prepending models for `alookup`. -/
def buildUserMaps (users : List RawUser) :
    List (Nat × String) × List (Nat × String) × List (Nat × String) :=
  users.foldl
    (fun maps user =>
      ((user.uid, user.username) :: maps.1,
       (user.uid, user.name) :: maps.2.1,
       (user.uid, user.email) :: maps.2.2))
    ([], [], [])

/-- The author display string `usernames[uid] + ' (' + names[uid] + ' ' +
emails[uid] + ')'`; `none` models the `KeyError` raised when `uid` is null
or not a key of the user dicts (all three dicts have the same key set). -/
def lookupAuthor (usernames names emails : List (Nat × String)) :
    Option Nat → Option String
  | none => none
  | some u =>
    match alookup usernames u, alookup names u, alookup emails u with
    | some un, some nm, some em => some (un ++ " (" ++ nm ++ " " ++ em ++ ")")
    | _, _, _ => none

/-- The author of a post (lines 227-230): the sentinel for a null user id,
otherwise the dict lookups, which raise for an unknown id. -/
def postAuthor (usernames names emails : List (Nat × String)) :
    Option Nat → Except BuildError String
  | none => .ok "UNKNOWN USER"
  | some u =>
    match lookupAuthor usernames names emails (some u) with
    | none => .error (.keyErrorUser (some u))
    | some a => .ok a

/-- The pass over topics (lines 212-220): seed `d[tid]` with the topic's
resolved author, title, created timestamp and an empty post list. -/
def topicsPass (usernames names emails : List (Nat × String)) :
    List RawTopic → Doc → Except BuildError Doc
  | [], d => .ok d
  | topic :: rest, d =>
    match lookupAuthor usernames names emails topic.uid with
    | none => .error (.keyErrorUser topic.uid)
    | some author =>
      topicsPass usernames names emails rest
        (d ++ [(topic.tid, ⟨author, topic.title, topic.created, [], none⟩)])

/-- Append a post to its topic's list (`d[tid]['posts'].append(...)`). -/
def appendPost (d : Doc) (tid : Nat) (p : Post) : Doc :=
  d.map (fun q => if q.1 = tid then (q.1, { q.2 with posts := q.2.posts ++ [p] }) else q)

/-- The pass over posts (lines 223-238): resolve the author (sentinel for a
null id), then append the post into its owning topic, whose absence raises
a `KeyError`. -/
def postsPass (usernames names emails : List (Nat × String)) :
    List RawPost → Doc → Except BuildError Doc
  | [], d => .ok d
  | post :: rest, d =>
    match postAuthor usernames names emails post.uid with
    | .error e => .error e
    | .ok author =>
      match alookup d post.tid with
      | none => .error (.keyErrorTopic post.tid)
      | some _ =>
        postsPass usernames names emails rest
          (appendPost d post.tid
            ⟨author, post.created, post.updated, post.raw, post.cooked, post.image_url⟩)

/-- Embedding of `generate_single_dict(topics, posts, users)`
(process_discourse_db.py lines 165-241). -/
def generate_single_dict (topics : List RawTopic) (posts : List RawPost)
    (users : List RawUser) : Except BuildError Doc :=
  let maps := buildUserMaps users
  match topicsPass maps.1 maps.2.1 maps.2.2 topics [] with
  | .error e => .error e
  | .ok d => postsPass maps.1 maps.2.1 maps.2.2 posts d

/-- An author display string of the required `<username> (<name> <email>)`
shape, with all three fields looked up in the user dicts at one common user
id. -/
def concatAuthor (usernames names emails : List (Nat × String)) (a : String) : Prop :=
  ∃ u un nm em, alookup usernames u = some un ∧ alookup names u = some nm ∧
    alookup emails u = some em ∧ a = un ++ " (" ++ nm ++ " " ++ em ++ ")"

/-- Every document entry has a well-shaped topic author and every post
author is either well-shaped or the sentinel. -/
def goodDoc (usernames names emails : List (Nat × String)) (d : Doc) : Prop :=
  ∀ tid e, alookup d tid = some e →
    concatAuthor usernames names emails e.author ∧
    ∀ p ∈ e.posts, p.author = "UNKNOWN USER" ∨ concatAuthor usernames names emails p.author

theorem lookupAuthor_concat (usernames names emails : List (Nat × String))
    (uid : Option Nat) (a : String)
    (h : lookupAuthor usernames names emails uid = some a) :
    concatAuthor usernames names emails a := by
  cases uid with
  | none => simp [lookupAuthor] at h
  | some u =>
    simp only [lookupAuthor] at h
    cases h1 : alookup usernames u <;> cases h2 : alookup names u <;>
      cases h3 : alookup emails u <;> rw [h1, h2, h3] at h <;> simp at h
    exact ⟨u, _, _, _, h1, h2, h3, h.symm⟩

theorem postAuthor_good (usernames names emails : List (Nat × String))
    (uid : Option Nat) (a : String)
    (h : postAuthor usernames names emails uid = .ok a) :
    a = "UNKNOWN USER" ∨ concatAuthor usernames names emails a := by
  cases uid with
  | none =>
    left
    simpa [postAuthor] using h.symm
  | some u =>
    right
    simp only [postAuthor] at h
    cases hl : lookupAuthor usernames names emails (some u) <;> rw [hl] at h <;> simp at h
    rw [← h]
    exact lookupAuthor_concat usernames names emails (some u) _ hl

theorem alookup_append {β : Type} (l1 l2 : List (Nat × β)) (key : Nat) :
    alookup (l1 ++ l2) key =
      match alookup l1 key with
      | some v => some v
      | none => alookup l2 key := by
  induction l1 with
  | nil => simp [alookup]
  | cons p rest ih =>
    obtain ⟨k, v⟩ := p
    by_cases h : k = key <;> simp [alookup, h, ih]

theorem alookup_appendPost (d : Doc) (tid tid' : Nat) (p : Post) :
    alookup (appendPost d tid p) tid' =
      if tid' = tid then (alookup d tid').map (fun t => { t with posts := t.posts ++ [p] })
      else alookup d tid' := by
  induction d with
  | nil => simp [appendPost, alookup]
  | cons q rest ih =>
    obtain ⟨k, w⟩ := q
    have hcons : appendPost ((k, w) :: rest) tid p =
        (if k = tid then (k, { w with posts := w.posts ++ [p] }) else (k, w)) ::
          appendPost rest tid p := rfl
    rw [hcons]
    by_cases hp : k = tid
    · rw [if_pos hp]
      by_cases hq : k = tid'
      · have htt : tid' = tid := hq.symm.trans hp
        rw [if_pos htt]
        simp [alookup, hq]
      · have hne : ¬ tid' = tid := fun h => hq (hp.trans h.symm)
        rw [if_neg hne]
        simp [alookup, hq, ih, hne]
    · rw [if_neg hp]
      by_cases hq : k = tid'
      · have hne : ¬ tid' = tid := fun h => hp (hq.trans h)
        rw [if_neg hne]
        simp [alookup, hq]
      · by_cases htt : tid' = tid
        · subst htt
          simp [alookup, hp, hq, ih]
        · rw [if_neg htt]
          simp [alookup, hp, hq, ih, htt]

theorem topicsPass_good (usernames names emails : List (Nat × String)) :
    ∀ (ts : List RawTopic) (d d' : Doc),
      topicsPass usernames names emails ts d = .ok d' →
      goodDoc usernames names emails d →
      goodDoc usernames names emails d' := by
  intro ts
  induction ts with
  | nil =>
    intro d d' hrun hg
    simp only [topicsPass] at hrun
    exact Except.ok.inj hrun ▸ hg
  | cons topic rest ih =>
    intro d d' hrun hg
    simp only [topicsPass] at hrun
    cases hl : lookupAuthor usernames names emails topic.uid with
    | none => rw [hl] at hrun; simp at hrun
    | some author =>
      rw [hl] at hrun
      refine ih _ d' hrun ?_
      intro tid e he
      rw [alookup_append] at he
      cases hd : alookup d tid with
      | some e0 =>
        rw [hd] at he
        exact hg tid e (he ▸ hd)
      | none =>
        rw [hd] at he
        simp only [alookup] at he
        by_cases hk : topic.tid = tid
        · rw [if_pos hk] at he
          cases he
          exact ⟨lookupAuthor_concat usernames names emails topic.uid author hl, by simp⟩
        · rw [if_neg hk] at he
          cases he

theorem postsPass_good (usernames names emails : List (Nat × String)) :
    ∀ (ps : List RawPost) (d d' : Doc),
      postsPass usernames names emails ps d = .ok d' →
      goodDoc usernames names emails d →
      goodDoc usernames names emails d' := by
  intro ps
  induction ps with
  | nil =>
    intro d d' hrun hg
    simp only [postsPass] at hrun
    exact Except.ok.inj hrun ▸ hg
  | cons post rest ih =>
    intro d d' hrun hg
    simp only [postsPass] at hrun
    cases ha : postAuthor usernames names emails post.uid with
    | error e => rw [ha] at hrun; simp at hrun
    | ok author =>
      rw [ha] at hrun
      cases hd : alookup d post.tid with
      | none => rw [hd] at hrun; simp at hrun
      | some t0 =>
        rw [hd] at hrun
        refine ih _ d' hrun ?_
        intro tid e he
        rw [alookup_appendPost] at he
        by_cases hk : tid = post.tid
        · rw [if_pos hk] at he
          cases hd2 : alookup d tid with
          | none => rw [hd2] at he; cases he
          | some e0 =>
            rw [hd2] at he
            simp only [Option.map_some'] at he
            obtain ⟨hga, hgp⟩ := hg tid e0 hd2
            cases he
            refine ⟨hga, ?_⟩
            intro q hq
            rcases List.mem_append.mp hq with hq1 | hq2
            · exact hgp q hq1
            · rw [List.mem_singleton.mp hq2]
              exact postAuthor_good usernames names emails post.uid author ha
        · rw [if_neg hk] at he
          exact hg tid e he

theorem topicsPass_error (usernames names emails : List (Nat × String)) :
    ∀ (ts : List RawTopic),
      (∃ tp ∈ ts, lookupAuthor usernames names emails tp.uid = none) →
      ∀ d, ∃ e, topicsPass usernames names emails ts d = .error e := by
  intro ts
  induction ts with
  | nil =>
    intro hex d
    obtain ⟨tp, htp, _⟩ := hex
    cases htp
  | cons topic rest ih =>
    intro hex d
    cases hl : lookupAuthor usernames names emails topic.uid with
    | none =>
      exact ⟨.keyErrorUser topic.uid, by simp [topicsPass, hl]⟩
    | some author =>
      obtain ⟨tp, htp, hbad⟩ := hex
      rcases List.mem_cons.mp htp with h0 | h'
      · exfalso
        subst h0
        rw [hl] at hbad
        cases hbad
      · obtain ⟨e, he⟩ := ih ⟨tp, h', hbad⟩
          (d ++ [(topic.tid, ⟨author, topic.title, topic.created, [], none⟩)])
        exact ⟨e, by simp [topicsPass, hl, he]⟩

theorem postsPass_error (usernames names emails : List (Nat × String)) :
    ∀ (ps : List RawPost),
      (∃ p ∈ ps, ∃ u, p.uid = some u ∧ lookupAuthor usernames names emails (some u) = none) →
      ∀ d, ∃ e, postsPass usernames names emails ps d = .error e := by
  intro ps
  induction ps with
  | nil =>
    intro hex d
    obtain ⟨p, hp, _⟩ := hex
    cases hp
  | cons post rest ih =>
    intro hex d
    cases ha : postAuthor usernames names emails post.uid with
    | error e =>
      exact ⟨e, by simp [postsPass, ha]⟩
    | ok author =>
      obtain ⟨p, hp, u, hu, hbad⟩ := hex
      rcases List.mem_cons.mp hp with h0 | h'
      · exfalso
        subst h0
        rw [hu] at ha
        simp only [postAuthor, hbad] at ha
        exact Except.noConfusion ha
      · cases hd : alookup d post.tid with
        | none =>
          exact ⟨.keyErrorTopic post.tid, by simp [postsPass, ha, hd]⟩
        | some t0 =>
          obtain ⟨e, he⟩ := ih ⟨p, h', u, hu, hbad⟩
            (appendPost d post.tid
              ⟨author, post.created, post.updated, post.raw, post.cooked, post.image_url⟩)
          exact ⟨e, by simp [postsPass, ha, hd, he]⟩

/-- C9 (amended): in every successfully built document, each topic author
display string is the concatenation `<username> (<name> <email>)` of a
resolved user's fields and each post author is that shape or the fixed
sentinel; a post whose author identifier is absent does get the sentinel
`"UNKNOWN USER"`; but an unresolvable author is not always tolerated — a
topic whose author identifier does not resolve, or a post with a non-null
author identifier not present in the user set, makes the build raise a
lookup error instead of substituting the sentinel. -/
theorem C9_author_display_strings (topics : List RawTopic) (posts : List RawPost)
    (users : List RawUser) :
    (∀ d, generate_single_dict topics posts users = .ok d →
      goodDoc (buildUserMaps users).1 (buildUserMaps users).2.1 (buildUserMaps users).2.2 d) ∧
    (postAuthor (buildUserMaps users).1 (buildUserMaps users).2.1 (buildUserMaps users).2.2
        none = .ok "UNKNOWN USER") ∧
    ((∃ tp ∈ topics, lookupAuthor (buildUserMaps users).1 (buildUserMaps users).2.1
        (buildUserMaps users).2.2 tp.uid = none) →
      ∃ e, generate_single_dict topics posts users = .error e) ∧
    ((∃ p ∈ posts, ∃ u, p.uid = some u ∧ lookupAuthor (buildUserMaps users).1
        (buildUserMaps users).2.1 (buildUserMaps users).2.2 (some u) = none) →
      ∃ e, generate_single_dict topics posts users = .error e) := by
  refine ⟨?_, rfl, ?_, ?_⟩
  · intro d hrun
    simp only [generate_single_dict] at hrun
    cases htp : topicsPass (buildUserMaps users).1 (buildUserMaps users).2.1
        (buildUserMaps users).2.2 topics [] with
    | error e => rw [htp] at hrun; simp at hrun
    | ok d0 =>
      rw [htp] at hrun
      refine postsPass_good _ _ _ posts d0 d hrun ?_
      refine topicsPass_good _ _ _ topics [] d0 htp ?_
      intro tid e he
      cases he
  · intro hex
    obtain ⟨e, he⟩ := topicsPass_error (buildUserMaps users).1 (buildUserMaps users).2.1
      (buildUserMaps users).2.2 topics hex []
    exact ⟨e, by simp [generate_single_dict, he]⟩
  · intro hex
    cases htp : topicsPass (buildUserMaps users).1 (buildUserMaps users).2.1
        (buildUserMaps users).2.2 topics [] with
    | error e =>
      exact ⟨e, by simp [generate_single_dict, htp]⟩
    | ok d0 =>
      obtain ⟨e, he⟩ := postsPass_error (buildUserMaps users).1 (buildUserMaps users).2.1
        (buildUserMaps users).2.2 posts hex d0
      exact ⟨e, by simp [generate_single_dict, htp, he]⟩

/-- C9, as stated, is falsified at a concrete input: with an empty user set,
a topic whose author identifier 7 is unresolvable makes the Snapshot Builder
raise a lookup error — the build fails instead of substituting the
`"UNKNOWN USER"` sentinel. -/
theorem C9_counterexample :
    generate_single_dict [⟨1, some 7, "A Topic", "2017-01-01T01:00:00"⟩] [] [] =
      .error (.keyErrorUser (some 7)) := by rfl

/-! ## Concrete fixtures for counterexamples and witnesses -/

/-- A transport whose k-th acknowledgment carries message id `m<k>` and
thread id `T<k>`, always marked SENT. -/
def trIds : Nat → SendResult :=
  fun k => .dict ⟨some ["SENT"], "m" ++ toString k, "T" ++ toString k⟩

/-- A filesystem on which every path exists. -/
def fsAll : String → Bool := fun _ => true

/-- A filesystem on which no path exists. -/
def fsNone : String → Bool := fun _ => false

/-- First post of the `dTwo` fixture. -/
def pTwo0 : Post := ⟨"alice (Alice A a@x)", "c0", "c0", "raw0", "cooked0", none⟩

/-- Second post of the `dTwo` fixture. -/
def pTwo1 : Post := ⟨"bob (Bob B b@x)", "c1", "c1", "raw1", "cooked1", none⟩

/-- A two-post topic entry, both posts without image references. -/
def tTwo : TopicEntry :=
  ⟨"alice (Alice A a@x)", "Topic One", "2017-01-01T01:00:00", [pTwo0, pTwo1], none⟩

/-- A document holding `tTwo` under topic id 1. -/
def dTwo : Doc := [(1, tTwo)]

/-- First post of the `dImg` fixture, with an internal-upload image. -/
def pImg0 : Post :=
  ⟨"alice (Alice A a@x)", "c0", "c0", "raw0", "cooked0", some "/forum/uploads/a.png"⟩

/-- Second post of the `dImg` fixture, with an internal-upload image. -/
def pImg1 : Post :=
  ⟨"bob (Bob B b@x)", "c1", "c1", "raw1", "cooked1", some "/forum/uploads/b.png"⟩

/-- A two-post topic entry whose posts both carry internal-upload image
references. -/
def tImg : TopicEntry :=
  ⟨"alice (Alice A a@x)", "Pictures", "2017-01-01T01:00:00", [pImg0, pImg1], none⟩

/-- A document holding `tImg` under topic id 7. -/
def dImg : Doc := [(7, tImg)]

/-- Two one-post topics (ids 1 and 2). -/
def dPair : Doc :=
  [(1, ⟨"alice (Alice A a@x)", "First", "c", [⟨"au", "c", "c", "r", "k", none⟩], none⟩),
   (2, ⟨"bob (Bob B b@x)", "Second", "c", [⟨"au", "c", "c", "r", "k", none⟩], none⟩)]

/-- Topics with post counts 3, 1 and 2 (ids 1, 2, 3) — the spec's worked
breadth-first example. -/
def dThree : Doc :=
  [(1, ⟨"a", "TA", "c", [⟨"u", "c", "c", "r1", "k1", none⟩, ⟨"u", "c", "c", "r2", "k2", none⟩,
      ⟨"u", "c", "c", "r3", "k3", none⟩], none⟩),
   (2, ⟨"b", "TB", "c", [⟨"u", "c", "c", "r1", "k1", none⟩], none⟩),
   (3, ⟨"c", "TC", "c", [⟨"u", "c", "c", "r1", "k1", none⟩, ⟨"u", "c", "c", "r2", "k2", none⟩],
      none⟩)]

/-- C4, as stated, is falsified at a concrete input: after a breadth-first
run of the two-post topic 1 whose two acknowledgments carry thread ids "T0"
and "T1", the topic's thread identifier was written twice (one write per
acknowledged send), and its final value "T1" differs from the value "T0"
assigned right after the topic's first acknowledged message — so it was
written again after its first assignment, not only read. -/
theorem C4_counterexample :
    (match mail_topics_as_posts_bf trIds fsNone dTwo [1] with
     | .ok st => some (st.writes, (alookup st.d 1).map (fun t => t.thread_id))
     | .error _ => none) =
      some ([(1, "T0"), (1, "T1")], some (some "T1")) := by rfl

/-- C8, as stated, is falsified at a concrete input: in sequential mode over
topic 7, whose first post's image reference resolves to the local path
"uploads/a.png", the run's first send carries no attachment (only the second
send carries its resolved attachment), although the Attachment Resolver does
resolve position 0. -/
theorem C8_counterexample :
    (mail_topic_as_posts trIds fsAll dImg 7).map
        (fun evs => evs.map (fun e => e.call.attachment)) =
      .ok [none, some "uploads/b.png"] ∧
    process_image_url fsAll dImg 7 0 = .ok (some "uploads/a.png") := by
  constructor <;> rfl

/-- C3 bug evaluation: a breadth-first run over the two one-post topics 1
and 2 whose sends are never acknowledged aborts at the very first send — a
single send was issued (topic 1, position 0) and topic 2 is never sent —
but the raised error is the interpreter NameError on the undefined name `i`
(the failure branch of `mail_topics_as_posts_bf` reads `i` and
`previous_message_id`, neither of which exists in that function), not the
intended exception naming the failing topic and post index. -/
theorem C3_bf_failure_is_nameError :
    (match mail_topics_as_posts_bf (fun _ => .str "Error") fsNone dPair [1, 2] with
     | .error (e, evs) => some (e, evs.map (fun ev => (ev.tid, ev.idx)))
     | .ok _ => none) = some (.nameError "i", [(1, 0)]) := by rfl

/-! ## Witnesses: the claim theorems applied at concrete inputs -/

/-- Witness for C1 at the spec's worked example — topics with post counts
3, 1 and 2: round 0 sends all three topics' position 0; round 1 sends
topics 1 and 3 at position 1; round 2 sends topic 1 at position 2. -/
theorem C1_witness :
    bfOrder dThree [1, 2, 3] = [(1, 0), (2, 0), (3, 0), (1, 1), (3, 1), (1, 2)] ∧
    ∃ st, mail_topics_as_posts_bf trIds fsNone dThree [1, 2, 3] = .ok st ∧
      st.trace.map (fun e => (e.tid, e.idx)) = bfOrder dThree [1, 2, 3] :=
  ⟨by decide, C1_breadth_first_rounds trIds fsNone dThree [1, 2, 3] (by decide) (fun k => rfl)⟩

/-- Witness for C2 on the two-post topic fixture. -/
theorem C2_witness :
    ∃ evs, mail_topic_as_posts trIds fsNone dTwo 1 = .ok evs ∧
      evs.map (fun e => e.idx) = List.range tTwo.posts.length ∧
      (∀ e ∈ evs, e.tid = 1) ∧
      (∀ e ∈ evs, e.idx = 0 → e.call.threadId = none ∧ e.call.reply_to = none) ∧
      (∀ e ∈ evs, 1 ≤ e.idx →
        e.call.threadId = some (resThread (trIds 0)) ∧
        e.call.reply_to = some (resId (trIds (e.idx - 1)))) :=
  C2_sequential_emission trIds fsNone dTwo 1 tTwo rfl (by decide) (fun k => rfl)

/-- Witness for the amended C4 on the two-post topic fixture. -/
theorem C4_witness :
    (∀ d1 most prev1, bfInit dTwo [1] 0 [] = .ok (d1, most, prev1) →
      ∀ tid ∈ [1], ∃ t, alookup d1 tid = some t ∧ t.thread_id = none) ∧
    (∃ st, mail_topics_as_posts_bf trIds fsNone dTwo [1] = .ok st ∧
      st.writes = st.trace.map (fun e => (e.tid, resThread (trIds e.k)))) :=
  C4_thread_state_lifecycle trIds fsNone dTwo [1] (by decide) (fun k => rfl)

/-- Witness for C6 on the two-post topic fixture's first post. -/
theorem C6_witness :
    alookup dTwo 1 = some tTwo ∧ tTwo.posts[0]? = some pTwo0 ∧
    construct_post_email_contents dTwo 1 0 =
      .ok (renderHeader tTwo pTwo0 0 ++ pTwo0.raw ++ "\n\n\n",
           replaceNewlines (renderHeader tTwo pTwo0 0) ++ pTwo0.cooked ++ "<br /><br /><br />") :=
  ⟨rfl, rfl, C6_render_exact dTwo 1 0 tTwo pTwo0 rfl rfl⟩

/-- Witness for C7 on the image-carrying fixture: the internal-upload
reference of post 0 resolves to the local uploads path. -/
theorem C7_witness :
    alookup dImg 7 = some tImg ∧ tImg.posts[0]? = some pImg0 ∧
    process_image_url fsAll dImg 7 0 = .ok (resolveSpec fsAll pImg0.image_url) ∧
    resolveSpec fsAll pImg0.image_url = some "uploads/a.png" :=
  ⟨rfl, rfl, C7_resolver_rules fsAll dImg 7 0 tImg pImg0 rfl rfl, by rfl⟩

/-- Witness for the amended C8 on the image-carrying fixture. -/
theorem C8_witness :
    (∃ st, mail_topics_as_posts_bf trIds fsAll dImg [7] = .ok st ∧
      ∀ e ∈ st.trace, process_image_url fsAll dImg e.tid e.idx = .ok e.call.attachment) ∧
    (∃ evs, mail_topic_as_posts trIds fsAll dImg 7 = .ok evs ∧
      (∀ e ∈ evs, 1 ≤ e.idx → process_image_url fsAll dImg 7 e.idx = .ok e.call.attachment) ∧
      (∀ e ∈ evs, e.idx = 0 → e.call.attachment = none)) :=
  C8_attachment_per_send trIds fsAll dImg [7] 7 tImg (by decide) rfl (by decide) (fun k => rfl)

/-- One resolvable user. -/
def usersW : List RawUser := [⟨5, "u1", "U One", "u1@x"⟩]

/-- One topic whose author is the resolvable user 5. -/
def topicsW : List RawTopic := [⟨1, some 5, "T", "tc"⟩]

/-- One post with an absent author identifier. -/
def postsW : List RawPost := [⟨1, none, "pc", "pu", "pr", "pk", none⟩]

/-- The document the Snapshot Builder produces from the witness rows. -/
def dBuilt : Doc :=
  [(1, ⟨"u1 (U One u1@x)", "T", "tc", [⟨"UNKNOWN USER", "pc", "pu", "pr", "pk", none⟩], none⟩)]

/-- Witness for the amended C9: the build succeeds on the witness rows,
rendering the topic author as the concatenation and the author-less post
with the sentinel, and the resulting document is well-shaped. -/
theorem C9_witness :
    generate_single_dict topicsW postsW usersW = .ok dBuilt ∧
    goodDoc (buildUserMaps usersW).1 (buildUserMaps usersW).2.1 (buildUserMaps usersW).2.2
      dBuilt :=
  ⟨by rfl, (C9_author_display_strings topicsW postsW usersW).1 dBuilt (by rfl)⟩

/-- An API call that always fails with an HTTP error. -/
def apiBoom : Nat → ApiOutcome := fun _ => .httpError "boom"

/-- Witness for C10: an always-HTTP-erroring API makes every send return the
string "Error", which fails the acknowledgment check, and the breadth-first
run over the two one-post topics aborts. -/
theorem C10_witness :
    (∀ k, SendMessageInternal (apiBoom k) = .str "Error") ∧
    (∀ k, isAck (SendMessageInternal (apiBoom k)) = false) ∧
    (∃ err, mail_topics_as_posts_bf (fun k => SendMessageInternal (apiBoom k))
        fsNone dPair [1, 2] = .error err) :=
  C10_http_error_is_caught apiBoom fsNone dPair [1, 2]
    (fun k => ⟨"boom", rfl⟩) (by decide) (by decide)
